import Mathlib

/-!
Verification of the command-evaluation engine and JSON Select engine of
`httpsh.py` (an interactive HTTP shell).  Python data structures are
shallowly embedded:

* A Python `dict` is an ordered association list `List (κ × α)` with
  insertion-order semantics: `dinsert` replaces the value of an existing
  key in place and appends a fresh key at the end, exactly as CPython
  dictionaries behave.  `dupdate d e` is Python's `d.update(e)`,
  `dremove` is `d.pop(name, None)` (restricted to its map effect), and
  `dlookup` is `d.get(key)`.
* Python exceptions are modelled with `Except`.
* Mutation is modelled by explicit state passing; the one genuinely
  aliased object of the Select engine (the `collected` accumulator dict)
  is modelled with an explicit reference constructor, see `RJson` below.
-/

namespace Httpsh

/-- Python `dict` lookup `d.get(k)` on an ordered association list:
returns the value of the first (hence, for `dinsert`-built maps, the
only) entry with key `k`. -/
def dlookup {κ : Type} {α : Type} [DecidableEq κ] (k : κ) :
    List (κ × α) → Option α
  | [] => none
  | kv :: rest => if kv.1 = k then some kv.2 else dlookup k rest

/-- Python `dict` assignment `d[k] = v`: if `k` is present its value is
replaced in place (keeping its position), otherwise the pair is appended
at the end, matching CPython insertion-order semantics. -/
def dinsert {κ : Type} {α : Type} [DecidableEq κ] (k : κ) (v : α) :
    List (κ × α) → List (κ × α)
  | [] => [(k, v)]
  | kv :: rest => if kv.1 = k then (k, v) :: rest else kv :: dinsert k v rest

/-- Python `d.pop(k, None)` restricted to its effect on the map:
removes the entry with key `k` when present. -/
def dremove {κ : Type} {α : Type} [DecidableEq κ] (k : κ)
    (d : List (κ × α)) : List (κ × α) :=
  d.filter (fun kv => !(kv.1 = k : Bool))

/-- Python `d.update(e)`: every entry of `e`, in order, is written into
`d` with `dinsert` semantics. -/
def dupdate {κ : Type} {α : Type} [DecidableEq κ]
    (d e : List (κ × α)) : List (κ × α) :=
  e.foldl (fun acc kv => dinsert kv.1 kv.2 acc) d

/-- Building a Python `dict` from a sequence of key/value pairs (a dict
comprehension): entries are inserted left to right, so a duplicated key
keeps its first position but its last value. -/
def buildDict {κ : Type} {α : Type} [DecidableEq κ]
    (entries : List (κ × α)) : List (κ × α) :=
  dupdate [] entries

/-!
## Value model (`Value` subclasses of the source)

Each `Value` subclass of the source carries a `type()` tag used for
typed variable lookups.  `NullValue.type()` returns Python `None`, so
the tag is an `Option String`.  No `Value` subclass overrides
`__bool__` or `__len__`, hence every `Value` *instance* is truthy in
Python; the only falsy value that can reach `Environment.bind` is
Python's `None`, which we model with `Option Value`.
-/
inductive Value where
  /-- `NullValue` -/
  | nullValue : Value
  /-- `StringValue` / `ErrorString` (both have type tag `'text'`) -/
  | stringValue (text : String) (isError : Bool) : Value
  /-- `Host(alias, hostname)` with its header map (`alias` is a Lean
  keyword, so the field is called `hostAlias`) -/
  | hostValue (hostAlias : String) (hostname : String)
      (headers : List (String × String)) : Value
  /-- `Response` (status code, headers, raw body) -/
  | responseValue (statusCode : Nat) (headers : List (String × String))
      (body : String) : Value
  /-- `Request` (a host snapshot reference, verb and path); see the heap
  model of claim C9 for the snapshot semantics -/
  | requestValue (hostRef : Nat) (verb : String) (path : String) : Value
deriving DecidableEq

/-- `Value.type()` of the source: the type tag of each subclass;
`NullValue.type()` returns Python `None`. -/
def Value.typeTag : Value → Option String
  | .nullValue => none
  | .stringValue _ _ => some "text"
  | .hostValue _ _ _ => some "host"
  | .responseValue _ _ _ => some "response"
  | .requestValue _ _ _ => some "request"

/-- Python truthiness of a value that may be `None`: every `Value`
instance of the source is truthy, `None` is falsy. -/
def truthy (v : Option Value) : Bool := v.isSome

/-- The shell's `Environment`: the variable map `name -> Value`
(the source's `self.variables`; `variables` is a Lean keyword so the
field is called `vars`).  The source's `host` and `history` fields play
no role in the claims about `bind`/`unbind`/`lookup` and are omitted;
the variable map stores `Option Value` because Python's dict could in
principle hold `None` — the invariant of claim C8 is exactly that it
never does. -/
structure Environment where
  vars : List (String × Option Value)
deriving DecidableEq

/-- `Environment.bind(name, value)` of the source:
stores the value if it is truthy, otherwise pops the binding; returns
the value either way. -/
def Environment.bind (env : Environment) (name : String)
    (value : Option Value) : Environment × Option Value :=
  if truthy value then
    (⟨dinsert name value env.vars⟩, value)
  else
    (⟨dremove name env.vars⟩, value)

/-- `Environment.unbind(name)` of the source: pops the binding and
returns the prior value (or `None`). -/
def Environment.unbind (env : Environment) (name : String) :
    Environment × Option Value :=
  (⟨dremove name env.vars⟩, (dlookup name env.vars).bind id)

/-- Errors raised by `Environment.lookup`. -/
inductive LookupErr where
  /-- `KeyError('no variable named: ...')` -/
  | notFound (name : String) : LookupErr
  /-- `ValueError('variable: ... has type: ... not ...')` -/
  | typeMismatch (name : String) : LookupErr
  /-- calling `.type()` on a stored `None` (unreachable under the C8
  invariant) -/
  | attributeError : LookupErr
deriving DecidableEq

/-- `Environment.lookup(var_name, var_type=None)` of the source:
raises `KeyError` when the name is absent; when `var_type` is truthy
(a non-empty string) and the stored value's type tag differs, raises
`ValueError`; otherwise returns the stored value. -/
def Environment.lookup (env : Environment) (name : String)
    (varType : Option String) : Except LookupErr (Option Value) :=
  match dlookup name env.vars with
  | none => .error (.notFound name)
  | some v =>
      match varType with
      | none => .ok v
      | some t =>
          if t = "" then .ok v
          else
            match v with
            | none => .error .attributeError
            | some val =>
                if val.typeTag = some t then .ok v
                else .error (.typeMismatch name)

/-- The truthiness invariant of the variable map (claim C8): every
stored binding is truthy, i.e. the map never holds a `None`. -/
def varsTruthy (d : List (String × Option Value)) : Prop :=
  ∀ kv ∈ d, truthy kv.2 = true

/-!
## Composite command: AssignCommand (claim C6)

`Command` instances of the source have a fixed capability surface
`(name, is_assignable(), evaluate)`.  An inner command is abstracted as
a `CommandModel`: its evaluation may mutate the environment and may
raise; both effects are made explicit in `run`'s type (mutations made
before an exception persist, as in Python).
-/
inductive EvalErr where
  /-- `ValueError("the '...' command is not assignable. ...")` -/
  | notAssignable (name : String) : EvalErr
  /-- any exception raised by the inner command -/
  | raised (msg : String) : EvalErr
deriving DecidableEq

/-- The fixed capability surface of a source `Command`:
`self.name`, `is_assignable()` and `evaluate`. -/
structure CommandModel where
  name : String
  assignable : Bool
  run : Environment → Except EvalErr (Option Value) × Environment

/-- `AssignCommand.evaluate` of the source: evaluates the wrapped
command only if it is assignable (else raises `ValueError`), binds the
result under the variable name and returns the result. -/
def assignEvaluate (varName : String) (inner : CommandModel)
    (env : Environment) : Except EvalErr (Option Value) × Environment :=
  if inner.assignable then
    match inner.run env with
    | (.ok result, env1) => (.ok result, (env1.bind varName result).1)
    | (.error e, env1) => (.error e, env1)
  else
    (.error (.notAssignable inner.name), env)

/-!
## Command registry and dispatch (`find_command`, claims C4 and C10)

The `@command` decorator registers each command class at import time:
`aliased_commands[name] = cmd` followed by `aliased_commands[alias] =
cmd` for every alias, in source order, with later registrations
overwriting earlier ones.  A resolved command is represented by its
primary name; `AssignCommand(var_name, rvalue)` wrapping is the
`assign` constructor.
-/
inductive Cmd where
  /-- a registered command, identified by its primary name -/
  | base (primary : String) : Cmd
  /-- `AssignCommand(var_name, command)` -/
  | assign (varName : String) (inner : Cmd) : Cmd
deriving DecidableEq

/-- The `(name, aliases)` pairs of every `@command`-decorated class in
the order their decorators run in the source.  Note `RequestsCommand`
passes `aliases=[]` to `VarsCommand.__init__`, whose `aliases or
['ls']` turns the falsy empty list into `['ls']`, so `requests` is also
registered under `ls`, overwriting `vars`. -/
def registrations : List (String × List String) :=
  [("help", ["?"]),
   ("run", [".", "source"]),
   ("repeat", []),
   ("select", []),
   ("request", ["@"]),
   ("send", ["!"]),
   ("curl", ["HEAD"]),
   ("head", ["HEAD"]),
   ("options", ["OPTIONS", "opt"]),
   ("get", ["GET", "g"]),
   ("put", ["PUT", "pu"]),
   ("post", ["POST", "po"]),
   ("getp", ["GETP", "gp"]),
   ("patch", ["pat"]),
   ("delete", ["del"]),
   ("headers", ["hs"]),
   ("hosts", []),
   ("header", ["hd"]),
   ("type", ["t"]),
   ("env", []),
   ("remove", ["rm", "del"]),
   ("vars", ["ls"]),
   ("requests", ["ls"]),
   ("host", ["h"])]

/-- The `aliased_commands` map of the source: token -> primary command
name, built by running every registration in order (later ones
overwrite). -/
def aliasedCommands : List (String × String) :=
  registrations.foldl
    (fun m nr => nr.2.foldl (fun m2 a => dinsert a nr.1 m2)
      (dinsert nr.1 nr.1 m))
    []

/-- Errors raised by `find_command`. -/
inductive FindErr where
  /-- `KeyError('could not find command: ...')` from the assignment
  branch -/
  | keyError : FindErr
  /-- `tokens[0]` on an empty token list raises `IndexError` -/
  | indexError : FindErr
deriving DecidableEq

/-- The non-assignment tail of `find_command`: look `tokens[0]` up in
`aliased_commands`; if found, return the command and the remaining
tokens, else return `None` together with the full token list. -/
def lookupToken (t0 : String) (rest : List String) :
    Option Cmd × List String :=
  match dlookup t0 aliasedCommands with
  | some primary => (some (.base primary), rest)
  | none => (none, t0 :: rest)

/-- `find_command(tokens)` of the source: with at least three tokens
and `tokens[1] == '='`, recursively resolve `tokens[2:]` and wrap the
result in an `AssignCommand` (raising `KeyError` when the recursive
resolution finds no command); otherwise look up `tokens[0]`. -/
def find_command : List String → Except FindErr (Option Cmd × List String)
  | [] => .error .indexError
  | t0 :: t1 :: t2 :: rest =>
      if t1 = "=" then
        match find_command (t2 :: rest) with
        | .error e => .error e
        | .ok (none, _) => .error .keyError
        | .ok (some c, args2) => .ok (some (.assign t0 c), args2)
      else .ok (lookupToken t0 (t1 :: t2 :: rest))
  | t0 :: rest => .ok (lookupToken t0 rest)

/-!
## The Select engine (`SelectCommand`, claims C1, C2, C3, C5)

JSON documents are finite trees; Python dicts preserve insertion order,
so objects are ordered association lists.

The one mutable object in a whole `_select` evaluation is the
`collected` accumulator dict created once in `_select` and passed —
never copied — through every recursive `_select_part` call; every
mutation in the source (`collected.update(...)` and `_merge_dicts`)
targets that single dict, and `_merge_dicts` *returns* it, so a result
produced at a last segment is that very object, observed only after
the whole traversal finished.  The embedding therefore threads the
accumulator contents (`CState`) explicitly and represents a returned
reference to the accumulator with the `RJson.ref` constructor, resolved
against the final accumulator contents at the end (`resolveF`), exactly
reproducing the aliasing behaviour of the source.

The Python functions recurse on the document structure; a `fuel`
parameter makes the Lean functions structurally recursive.  Any fuel
larger than the document's nesting depth makes the `fuelOut` branch
unreachable, so all claims are stated with sufficient fuel.
-/
inductive Json where
  | null : Json
  | bool (b : Bool) : Json
  | num (n : Int) : Json
  | str (s : String) : Json
  | arr (items : List Json) : Json
  | obj (fields : List (String × Json)) : Json

/-- A JSON result that may contain references to the one shared
`collected` accumulator dict. -/
inductive RJson where
  /-- a plain (sub)document value -/
  | lit (j : Json) : RJson
  /-- the shared `collected` accumulator object, as returned by
  `_merge_dicts` -/
  | ref : RJson
  | obj (fields : List (String × RJson)) : RJson
  | arr (items : List RJson) : RJson

/-- Contents of the shared `collected` accumulator dict; its values are
always plain subtrees of the input document. -/
abbrev CState := List (String × Json)

/-- Python `str.split(sep)` for a single-character separator, on
explicit character lists (so that it reduces in the kernel). -/
def splitOnChar (c : Char) : List Char → List (List Char)
  | [] => [[]]
  | x :: xs =>
      let r := splitOnChar c xs
      if x = c then [] :: r
      else
        match r with
        | [] => [[x]]
        | y :: ys => (x :: y) :: ys

/-- Python `s.split(c)` for a one-character separator `c`. -/
def splitStr (c : Char) (s : String) : List String :=
  (splitOnChar c s.data).map String.mk

/-- Python default-whitespace characters, as stripped by `str.strip()`. -/
def isPyWs (ch : Char) : Bool :=
  ch = ' ' || ch = '\t' || ch = '\n' || ch = '\x0d' || ch = '\x0b' || ch = '\x0c'

/-- Python truthiness of `s.strip()`: true iff `s` has a
non-whitespace character. -/
def strippedNonEmpty (s : String) : Bool :=
  s.data.any (fun ch => !(isPyWs ch))

/-- `[x for x in s.split(',') if x.strip()]` — the comma-splitting used
by `_parse_expression` for both the pattern part and the collect part:
whitespace-only entries are discarded, kept entries stay untrimmed. -/
def splitCommaKeep (s : String) : List String :=
  (splitStr ',' s).filter (fun p => strippedNonEmpty p)

/-- The characters before the first occurrence of `c`, and (when `c`
occurs) the characters after it. -/
def takeUntilChar (c : Char) : List Char → List Char × Option (List Char)
  | [] => ([], none)
  | x :: xs =>
      if x = c then ([], some xs)
      else
        let r := takeUntilChar c xs
        (x :: r.1, r.2)

/-- `_parse_expression` of the source: the regex
`([^(]*)(\(([^)]*)\))?` takes group 1 as the longest prefix without
`(`; the optional group matches only when that prefix is followed by
`(`, some non-`)` characters and a `)`, giving group 3; both groups are
comma-split discarding whitespace-only entries (and a matched but empty
group 3 is falsy in Python, yielding an empty collect list, exactly
like `splitCommaKeep ""`). -/
def parse_expression (expression : String) : List String × List String :=
  let r1 := takeUntilChar '(' expression.data
  let patterns := splitCommaKeep (String.mk r1.1)
  match r1.2 with
  | none => (patterns, [])
  | some rest =>
      let r2 := takeUntilChar ')' rest
      match r2.2 with
      | none => (patterns, [])
      | some _ => (patterns, splitCommaKeep (String.mk r2.1))

/-- Python `','.join(patterns)`, used by the array branch of
`_select_part` to re-join the pattern list into one segment string. -/
def joinComma : List String → String
  | [] => ""
  | [x] => x
  | x :: y :: rest => x ++ "," ++ joinComma (y :: rest)

/-- All suffixes of a character list (longest first). -/
def suffixes : List Char → List (List Char)
  | [] => [[]]
  | c :: cs => (c :: cs) :: suffixes cs

/-- Full-string glob matching: `_matches` of the source builds the
regex `'^' + pattern.replace('*', '.*') + '$'` and `re.match`es it, so
`*` matches any substring and every other character of a pattern
matches itself literally (select patterns contain no `.`, `(` or `,`
by construction, and no other regex metacharacters appear in the
grammar). -/
def globMatch : List Char → List Char → Bool
  | [], s => s.isEmpty
  | p :: ps, s =>
      if p = '*' then (suffixes s).any (fun t => globMatch ps t)
      else
        match s with
        | [] => false
        | c :: cs => p = c && globMatch ps cs

/-- `_matches(pattern, string)` of the source. -/
def matches_pattern (pattern s : String) : Bool :=
  globMatch pattern.data s.data

/-- `_get_matching_keys(node, pattern)` of the source, for an object
node: the keys matching the pattern, in insertion order. -/
def get_matching_keys (fields : List (String × Json))
    (pattern : String) : List String :=
  (fields.map Prod.fst).filter (fun key => matches_pattern pattern key)

/-- The `(key, node[key])` pairs enumerated by the comprehensions
`for pattern in patterns for key in _get_matching_keys(node, pattern)`
of the source, in iteration order (a key matching several patterns
appears once per pattern). -/
def pairsFor (fields : List (String × Json)) (pats : List String) :
    List (String × Json) :=
  List.flatten (pats.map (fun pat =>
    (get_matching_keys fields pat).filterMap
      (fun k => (dlookup k fields).map (fun v => (k, v)))))

/-- Errors raised by `_select_part` / `_verify_result`. -/
inductive SelectErr where
  /-- `KeyError('could not traverse any deeper into JSON.')` from
  `_verify_result` -/
  | exhausted : SelectErr
  /-- `KeyError('could not traverse any deeper into JSON (part=..,
  parts=..)')` from the scalar fallthrough -/
  | cannotDescend (part : String) (parts : List String) : SelectErr
  /-- `node[key]` on a missing key (unreachable: the keys come from the
  node itself) -/
  | keyError : SelectErr
  /-- artificial fuel exhaustion, unreachable with fuel above the
  document's nesting depth -/
  | fuelOut : SelectErr
deriving DecidableEq

/-- The dict comprehension of the recursive object branch: evaluate the
child under every enumerated key left to right, threading the shared
accumulator, collecting `(key, result)` entries; a raised exception
aborts the whole comprehension. -/
def foldChildren
    (child : Json → CState → Except SelectErr (RJson × CState))
    (fields : List (String × Json)) :
    List String → CState → Except SelectErr (List (String × RJson) × CState)
  | [], st => .ok ([], st)
  | k :: ks, st =>
      match dlookup k fields with
      | none => .error .keyError
      | some v =>
          match child v st with
          | .error e => .error e
          | .ok (r, st1) =>
              match foldChildren child fields ks st1 with
              | .error e => .error e
              | .ok (rest, st2) => .ok ((k, r) :: rest, st2)

/-- The list comprehension of the array branch: evaluate every element
left to right, threading the shared accumulator. -/
def foldItems
    (child : Json → CState → Except SelectErr (RJson × CState)) :
    List Json → CState → Except SelectErr (List RJson × CState)
  | [], st => .ok ([], st)
  | item :: items, st =>
      match child item st with
      | .error e => .error e
      | .ok (r, st1) =>
          match foldItems child items st1 with
          | .error e => .error e
          | .ok (rest, st2) => .ok ((r :: rest), st2)

/-- `_select_part(node, part, parts, collect_here, collected)` of the
source, with the `collected` accumulator threaded as explicit state and
a structural fuel parameter.  Object node: first copy every
`collect_here` match of this node into the accumulator; then, with
segments remaining, recurse into every key matched by this segment's
patterns (passing this segment's collect list down) and fail
`exhausted` when the assembled object is empty; at the last segment,
assemble the object of all pattern matches, fail `exhausted` when it is
empty, else `_merge_dicts(collected, selected)` — `collected.update
(selected)`, so *selected* entries overwrite accumulator entries — and
return the accumulator object itself (`RJson.ref`).  Array node:
re-join the patterns with commas and evaluate every element with the
same remaining segments and collect list, threading the one shared
accumulator through all elements.  Scalar node: return it only when no
segments remain and the pattern list is exactly `['*']`. -/
def select_part : Nat → Json → String → List String → List String →
    CState → Except SelectErr (RJson × CState)
  | 0, _, _, _, _, _ => .error .fuelOut
  | Nat.succ fuel, node, part, parts, collectHere, st =>
      let patterns := (parse_expression part).1
      let collect := (parse_expression part).2
      match node with
      | .obj fields =>
          let st1 := dupdate st (buildDict (pairsFor fields collectHere))
          match parts with
          | p :: ps =>
              let keys := List.flatten
                (patterns.map (fun pat => get_matching_keys fields pat))
              match foldChildren
                  (fun v s => select_part fuel v p ps collect s)
                  fields keys st1 with
              | .error e => .error e
              | .ok (entries, st2) =>
                  let result := buildDict entries
                  if result.isEmpty then .error .exhausted
                  else .ok (.obj result, st2)
          | [] =>
              let sel := buildDict (pairsFor fields patterns)
              if sel.isEmpty then .error .exhausted
              else .ok (.ref, dupdate st1 sel)
      | .arr items =>
          match foldItems
              (fun v s =>
                select_part fuel v (joinComma patterns) parts collectHere s)
              items st with
          | .error e => .error e
          | .ok (rs, st2) => .ok (.arr rs, st2)
      | _ =>
          if parts.isEmpty && patterns == ["*"] then .ok (.lit node, st)
          else .error (.cannotDescend part parts)

/-- Substitutes the final contents of the shared accumulator for every
reference to it in a result: what the caller of `_select` observes
after the traversal finished (the fuel only needs to exceed the result
nesting depth). -/
def resolveF : Nat → CState → RJson → Json
  | 0, _, _ => .null
  | Nat.succ fuel, st, r =>
      match r with
      | .lit j => j
      | .ref => .obj st
      | .obj fields => .obj (fields.map (fun kv => (kv.1, resolveF fuel st kv.2)))
      | .arr items => .arr (items.map (fun item => resolveF fuel st item))

/-- Resolving the outcome of a `_select_part` traversal against the
final accumulator contents. -/
def finishSelect (fuel : Nat) (r : Except SelectErr (RJson × CState)) :
    Except SelectErr Json :=
  match r with
  | .error e => .error e
  | .ok rs => .ok (resolveF fuel rs.2 rs.1)

/-- `_select(resp, select_stmt)` of the source, on the response's JSON
document: split the statement on `.`; when the first segment has no
patterns but a non-empty collect list and at least one further segment
exists, start at the second segment with the first segment's collect
list carried forward; otherwise start at the first segment with no
inherited collect list.  The fresh accumulator is the empty dict. -/
def select_stmt (fuel : Nat) (doc : Json) (stmt : String) :
    Except SelectErr Json :=
  match splitStr '.' stmt with
  | [] => .error .keyError
  | p0 :: rest =>
      match rest, (parse_expression p0).1, (parse_expression p0).2 with
      | p1 :: rest2, [], c :: cs =>
          finishSelect fuel (select_part fuel doc p1 rest2 (c :: cs) [])
      | _, _, _ =>
          finishSelect fuel (select_part fuel doc p0 rest [] [])

/-!
## The Request snapshot (claim C9)

Python objects live on a heap and are aliased by reference;
`Request.__init__` runs `self.host = copy.deepcopy(host)`, allocating a
*fresh* object graph whose contents (including the header dict) equal
the live host's at that moment, while `Host.add_header` /
`Host.remove_header` mutate the live host object in place.  The heap is
modelled as a map from references to host objects; `deepcopy` is
allocation of a fresh cell holding the same contents; in-place header
mutation is an update of the addressed cell. -/
structure HostObj where
  hostAlias : String
  hostname : String
  headers : List (String × String)
deriving DecidableEq

/-- The heap of live `Host` objects, addressed by reference. -/
abbrev Heap := List (Nat × HostObj)

/-- A reference unused by the heap (strictly larger than every
allocated reference). -/
def freshRef (h : Heap) : Nat :=
  h.foldr (fun kv acc => max (kv.1 + 1) acc) 0

/-- `Host.add_header(name, value)` of the source (`self.headers[name] =
value`): mutates the addressed live host object in place. -/
def host_add_header (heap : Heap) (r : Nat) (name value : String) : Heap :=
  match dlookup r heap with
  | none => heap
  | some h => dinsert r { h with headers := dinsert name value h.headers } heap

/-- `Host.remove_header(name)` of the source (`self.headers.pop(name,
None)`): mutates the addressed live host object in place. -/
def host_remove_header (heap : Heap) (r : Nat) (name : String) : Heap :=
  match dlookup r heap with
  | none => heap
  | some h => dinsert r { h with headers := dremove name h.headers } heap

/-- A stored `Request` value: the reference to its host snapshot, the
verb of its command, and its path (payload omitted — it plays no role
in C9). -/
structure RequestObj where
  hostRef : Nat
  verb : String
  path : String
deriving DecidableEq

/-- `Request.__init__(host, command, path)` of the source:
`self.host = copy.deepcopy(host)` — allocate a fresh cell holding a
copy of the live host's contents (returns `none` only on a dangling
reference, which cannot occur: the live host is always allocated). -/
def request_init (heap : Heap) (liveRef : Nat) (verb path : String) :
    Option (Heap × RequestObj) :=
  match dlookup liveRef heap with
  | none => none
  | some h =>
      some (dinsert (freshRef heap) h heap, ⟨freshRef heap, verb, path⟩)


section DictLemmas

variable {κ : Type} {α : Type} [DecidableEq κ]

theorem dlookup_dinsert_self (k : κ) (v : α) (d : List (κ × α)) :
    dlookup k (dinsert k v d) = some v := by
  induction d with
  | nil => simp [dinsert, dlookup]
  | cons kv rest ih =>
      by_cases h : kv.1 = k
      · simp [dinsert, dlookup, h]
      · simp [dinsert, dlookup, h, ih]

theorem dlookup_dinsert_ne (k k' : κ) (v : α) (d : List (κ × α))
    (h : k' ≠ k) : dlookup k' (dinsert k v d) = dlookup k' d := by
  have hne : ¬k = k' := Ne.symm h
  induction d with
  | nil => simp [dinsert, dlookup, hne]
  | cons kv rest ih =>
      by_cases hk : kv.1 = k
      · simp [dinsert, dlookup, hk, hne]
      · simp [dinsert, dlookup, hk, ih]

theorem dlookup_dremove_self (k : κ) (d : List (κ × α)) :
    dlookup k (dremove k d) = none := by
  induction d with
  | nil => rfl
  | cons kv rest ih =>
      by_cases h : kv.1 = k
      · simpa [dremove, List.filter_cons, h] using ih
      · simpa [dremove, dlookup, List.filter_cons, h] using ih

theorem dlookup_dremove_ne (k k' : κ) (d : List (κ × α)) (h : k' ≠ k) :
    dlookup k' (dremove k d) = dlookup k' d := by
  have hne : ¬k = k' := Ne.symm h
  induction d with
  | nil => rfl
  | cons kv rest ih =>
      by_cases hk : kv.1 = k
      · simpa [dremove, dlookup, List.filter_cons, hk, hne] using ih
      · simp only [dremove, dlookup, List.filter_cons, hk] at ih ⊢
        simp [dlookup, ih]

/-- Updating with entries that do not mention `k` leaves `k`'s binding
unchanged. -/
theorem dlookup_dupdate_not_mem (k : κ) : ∀ (e d : List (κ × α)),
    (∀ kv ∈ e, kv.1 ≠ k) → dlookup k (dupdate d e) = dlookup k d := by
  intro e
  induction e with
  | nil => intro d _; rfl
  | cons kv rest ih =>
      intro d h
      have hk : kv.1 ≠ k := h kv (by simp)
      have hrest : ∀ kv2 ∈ rest, kv2.1 ≠ k := fun kv2 hm => h kv2 (by simp [hm])
      have step : dupdate d (kv :: rest) = dupdate (dinsert kv.1 kv.2 d) rest := rfl
      rw [step, ih _ hrest, dlookup_dinsert_ne _ _ _ _ (Ne.symm hk)]

theorem dlookup_none_forall (k : κ) : ∀ (e : List (κ × α)),
    dlookup k e = none → ∀ kv ∈ e, kv.1 ≠ k := by
  intro e
  induction e with
  | nil => intro _ kv hm; cases hm
  | cons kv0 rest ih =>
      intro h kv hm
      by_cases h0 : kv0.1 = k
      · simp [dlookup, h0] at h
      · simp only [dlookup, h0, if_neg h0] at h
        rcases List.mem_cons.mp hm with hm1 | hm1
        · rw [hm1]; exact h0
        · exact ih h kv hm1

/-- Updating with entries without key `k` — in particular with a map in
which `k` is absent — leaves `k`'s binding unchanged. -/
theorem dlookup_dupdate_of_none (k : κ) (d e : List (κ × α))
    (h : dlookup k e = none) :
    dlookup k (dupdate d e) = dlookup k d :=
  dlookup_dupdate_not_mem k e d (dlookup_none_forall k e h)

theorem keys_dinsert (k : κ) (v : α) (d : List (κ × α)) :
    (dinsert k v d).map Prod.fst =
      if k ∈ d.map Prod.fst then d.map Prod.fst
      else d.map Prod.fst ++ [k] := by
  induction d with
  | nil => simp [dinsert]
  | cons kv rest ih =>
      by_cases h : kv.1 = k
      · simp [dinsert, h]
      · have hne : ¬k = kv.1 := fun e => h e.symm
        by_cases hm : k ∈ rest.map Prod.fst
        · simp [dinsert, h, ih, hm, hne]
        · simp [dinsert, h, ih, hm, hne]

theorem nodup_keys_dinsert (k : κ) (v : α) (d : List (κ × α))
    (h : (d.map Prod.fst).Nodup) :
    ((dinsert k v d).map Prod.fst).Nodup := by
  rw [keys_dinsert]
  by_cases hm : k ∈ d.map Prod.fst
  · simpa [hm] using h
  · simp [hm, List.nodup_append, h]

theorem nodup_keys_dupdate : ∀ (e d : List (κ × α)),
    (d.map Prod.fst).Nodup → ((dupdate d e).map Prod.fst).Nodup := by
  intro e
  induction e with
  | nil => intro d h; exact h
  | cons kv rest ih =>
      intro d h
      have step : dupdate d (kv :: rest) = dupdate (dinsert kv.1 kv.2 d) rest := rfl
      rw [step]
      exact ih _ (nodup_keys_dinsert kv.1 kv.2 d h)

theorem nodup_keys_buildDict (entries : List (κ × α)) :
    ((buildDict entries).map Prod.fst).Nodup :=
  nodup_keys_dupdate entries [] (by simp)

/-- On a map with unique keys, every entry of the update argument wins
in the updated map. -/
theorem dlookup_dupdate_of_nodup (k : κ) : ∀ (e d : List (κ × α)) (v : α),
    (e.map Prod.fst).Nodup → dlookup k e = some v →
    dlookup k (dupdate d e) = some v := by
  intro e
  induction e with
  | nil => intro d v _ h; cases h
  | cons kv rest ih =>
      intro d v hnd h
      have step : dupdate d (kv :: rest) = dupdate (dinsert kv.1 kv.2 d) rest := rfl
      rw [step]
      have hnd2 : (rest.map Prod.fst).Nodup := (List.nodup_cons.mp hnd).2
      by_cases h0 : kv.1 = k
      · simp only [dlookup, h0, if_pos h0] at h
        have hk : v = kv.2 := by
          cases h
          rfl
        subst hk
        subst h0
        have hnm : kv.1 ∉ rest.map Prod.fst := (List.nodup_cons.mp hnd).1
        have : ∀ kv2 ∈ rest, kv2.1 ≠ kv.1 := by
          intro kv2 hm he
          exact hnm (he ▸ List.mem_map_of_mem Prod.fst hm)
        rw [dlookup_dupdate_not_mem _ _ _ this]
        exact dlookup_dinsert_self kv.1 kv.2 d
      · simp only [dlookup, h0, if_neg h0] at h
        exact ih _ v hnd2 h

end DictLemmas
theorem varsTruthy_dinsert (name : String) (v : Option Value)
    (hv : truthy v = true) : ∀ d : List (String × Option Value),
    varsTruthy d → varsTruthy (dinsert name v d) := by
  intro d
  induction d with
  | nil =>
      intro _ kv hm
      simp only [dinsert, List.mem_singleton] at hm
      simp [hm, hv]
  | cons kv0 rest ih =>
      intro hd kv hm
      have hkv0 : truthy kv0.2 = true := hd kv0 (by simp)
      have hrest : varsTruthy rest := fun kv2 hm2 => hd kv2 (by simp [hm2])
      by_cases h : kv0.1 = name
      · simp only [dinsert, if_pos h] at hm
        rcases List.mem_cons.mp hm with hm1 | hm1
        · simp [hm1, hv]
        · exact hrest kv hm1
      · simp only [dinsert, if_neg h] at hm
        rcases List.mem_cons.mp hm with hm1 | hm1
        · simp [hm1, hkv0]
        · exact ih hrest kv hm1

theorem varsTruthy_dremove (name : String)
    (d : List (String × Option Value)) (hd : varsTruthy d) :
    varsTruthy (dremove name d) := by
  intro kv hm
  exact hd kv (List.mem_filter.mp hm).1

/-- C6: for every `Assign(name, inner)` evaluation: if `inner` is not
assignable the evaluation fails with NotAssignable and `inner` is never
evaluated — the environment is returned unchanged no matter what
`inner.run` would do; if `inner` is assignable and its evaluation
returns `r` in environment `env1`, then `r` is bound under `name` (so a
truthy `r` is subsequently stored under `name`) and that same `r` is
returned. -/
theorem claim6_assign_evaluate (varName : String) (inner : CommandModel)
    (env : Environment) :
    (inner.assignable = false →
      assignEvaluate varName inner env =
        (.error (.notAssignable inner.name), env)) ∧
    (∀ r env1, inner.assignable = true → inner.run env = (.ok r, env1) →
      assignEvaluate varName inner env = (.ok r, (env1.bind varName r).1) ∧
      (truthy r = true →
        dlookup varName (assignEvaluate varName inner env).2.vars = some r)) := by
  constructor
  · intro h
    simp [assignEvaluate, h]
  · intro r env1 h hrun
    have heval : assignEvaluate varName inner env =
        (.ok r, (env1.bind varName r).1) := by
      simp [assignEvaluate, h, hrun]
    refine ⟨heval, ?_⟩
    intro htr
    rw [heval]
    simp only [Environment.bind, htr, if_pos rfl]
    exact dlookup_dinsert_self varName r env1.vars

/-- Witness for C6 at two concrete inner commands: a non-assignable
command (modelled on `help`) fails NotAssignable leaving the empty
environment unchanged, and an assignable command (modelled on `get`)
returning a text value gets its result bound under `x` and returned. -/
theorem claim6_assign_evaluate_witness :
    assignEvaluate "x" ⟨"help", false, fun e => (Except.ok none, e)⟩ ⟨[]⟩ =
      (.error (.notAssignable "help"), ⟨[]⟩) ∧
    assignEvaluate "x"
        ⟨"get", true, fun e => (Except.ok (some (.stringValue "ok" false)), e)⟩
        ⟨[]⟩ =
      (.ok (some (.stringValue "ok" false)),
        ⟨[("x", some (.stringValue "ok" false))]⟩) := by
  constructor
  · exact (claim6_assign_evaluate "x" _ ⟨[]⟩).1 rfl
  · exact ((claim6_assign_evaluate "x" _ ⟨[]⟩).2
      (some (.stringValue "ok" false)) ⟨[]⟩ rfl rfl).1

/-- C7: `lookup(name)` fails NotFound when `name` is absent;
`lookup(name, expectedType)` with `name` bound to a proper value fails
TypeMismatch exactly when the stored value's type tag differs from the
(non-empty) expected type and otherwise returns the stored value; after
`bind(name, v)` with truthy `v`, `lookup(name)` succeeds with `v`, and
after a subsequent `unbind(name)` it fails NotFound. -/
theorem claim7_lookup (env : Environment) (name : String) (t : String)
    (val : Value) (v : Option Value) :
    (dlookup name env.vars = none →
      env.lookup name none = .error (.notFound name)) ∧
    (dlookup name env.vars = some (some val) → t ≠ "" →
      ((val.typeTag ≠ some t →
          env.lookup name (some t) = .error (.typeMismatch name)) ∧
        (val.typeTag = some t →
          env.lookup name (some t) = .ok (some val)))) ∧
    (truthy v = true →
      ((env.bind name v).1.lookup name none = .ok v ∧
        ((env.bind name v).1.unbind name).1.lookup name none =
          .error (.notFound name))) := by
  refine ⟨?_, ?_, ?_⟩
  · intro h
    simp [Environment.lookup, h]
  · intro h ht
    constructor
    · intro hne
      simp [Environment.lookup, h, ht, hne]
    · intro heq
      simp [Environment.lookup, h, ht, heq]
  · intro htr
    have hbind : (env.bind name v).1.vars = dinsert name v env.vars := by
      simp [Environment.bind, htr]
    constructor
    · simp [Environment.lookup, hbind, dlookup_dinsert_self]
    · have hunbind : ((env.bind name v).1.unbind name).1.vars =
          dremove name (dinsert name v env.vars) := by
        simp [Environment.unbind, hbind]
      simp [Environment.lookup, hunbind, dlookup_dremove_self]

/-- Witness for C7 on a concrete environment holding one host value:
an absent name fails NotFound, a host looked up as a response fails
TypeMismatch, a host looked up as a host is returned, and binding then
unbinding `n` flips lookup from success to NotFound. -/
theorem claim7_lookup_witness :
    (Environment.mk [("h", some (.hostValue "a" "http://x" []))]).lookup
        "z" none = .error (.notFound "z") ∧
    (Environment.mk [("h", some (.hostValue "a" "http://x" []))]).lookup
        "h" (some "response") = .error (.typeMismatch "h") ∧
    (Environment.mk [("h", some (.hostValue "a" "http://x" []))]).lookup
        "h" (some "host") = .ok (some (.hostValue "a" "http://x" [])) ∧
    ((Environment.mk []).bind "n" (some .nullValue)).1.lookup "n" none =
      .ok (some .nullValue) ∧
    (((Environment.mk []).bind "n" (some .nullValue)).1.unbind "n").1.lookup
        "n" none = .error (.notFound "n") := by
  refine ⟨?_, ?_, ?_, ?_, ?_⟩
  · exact (claim7_lookup ⟨[("h", some (.hostValue "a" "http://x" []))]⟩
      "z" "host" .nullValue none).1 (by decide)
  · exact ((claim7_lookup ⟨[("h", some (.hostValue "a" "http://x" []))]⟩
      "h" "response" (.hostValue "a" "http://x" []) none).2.1 (by decide)
      (by decide)).1 (by decide)
  · exact ((claim7_lookup ⟨[("h", some (.hostValue "a" "http://x" []))]⟩
      "h" "host" (.hostValue "a" "http://x" []) none).2.1 (by decide)
      (by decide)).2 (by decide)
  · exact ((claim7_lookup ⟨[]⟩ "n" "host" .nullValue
      (some .nullValue)).2.2 (by decide)).1
  · exact ((claim7_lookup ⟨[]⟩ "n" "host" .nullValue
      (some .nullValue)).2.2 (by decide)).2

/-- C8: `bind(name, value)` stores the value when truthy, removes any
existing binding when falsy, and returns the value either way; both
`bind` and `unbind` (the only writers of the variable map in the
source) preserve the invariant that every stored binding is truthy —
so the map never contains a null binding. -/
theorem claim8_bind_invariant (env : Environment) (name : String)
    (value : Option Value) :
    ((env.bind name value).2 = value) ∧
    (truthy value = true →
      (env.bind name value).1.vars = dinsert name value env.vars ∧
        dlookup name (env.bind name value).1.vars = some value) ∧
    (truthy value = false →
      (env.bind name value).1.vars = dremove name env.vars ∧
        dlookup name (env.bind name value).1.vars = none) ∧
    (varsTruthy env.vars → varsTruthy (env.bind name value).1.vars) ∧
    (varsTruthy env.vars → varsTruthy (env.unbind name).1.vars) := by
  refine ⟨?_, ?_, ?_, ?_, ?_⟩
  · by_cases h : truthy value = true
    · simp [Environment.bind, h]
    · simp [Environment.bind, h]
  · intro h
    refine ⟨by simp [Environment.bind, h], ?_⟩
    simp [Environment.bind, h, dlookup_dinsert_self]
  · intro h
    refine ⟨by simp [Environment.bind, h], ?_⟩
    simp [Environment.bind, h, dlookup_dremove_self]
  · intro hinv
    by_cases h : truthy value = true
    · simp only [Environment.bind, h, if_pos rfl]
      exact varsTruthy_dinsert name value h env.vars hinv
    · simp only [Environment.bind, h, if_neg h]
      exact varsTruthy_dremove name env.vars hinv
  · intro hinv
    exact varsTruthy_dremove name env.vars hinv

/-- Witness for C8: binding a truthy value stores it, binding `None`
removes an existing binding, the value is returned either way, and the
truthiness invariant holds after a bind and an unbind on a concrete
map. -/
theorem claim8_bind_invariant_witness :
    ((Environment.mk []).bind "n" (some .nullValue)).2 = some .nullValue ∧
    ((Environment.mk []).bind "n" (some .nullValue)).1.vars =
      [("n", some .nullValue)] ∧
    ((Environment.mk [("n", some .nullValue)]).bind "n" none).1.vars = [] ∧
    varsTruthy ((Environment.mk [("n", some .nullValue)]).bind "n"
      none).1.vars ∧
    varsTruthy ((Environment.mk [("n", some .nullValue)]).unbind "n").1.vars := by
  refine ⟨?_, ?_, ?_, ?_, ?_⟩
  · exact (claim8_bind_invariant ⟨[]⟩ "n" (some .nullValue)).1
  · exact ((claim8_bind_invariant ⟨[]⟩ "n" (some .nullValue)).2.1
      (by decide)).1
  · exact ((claim8_bind_invariant ⟨[("n", some .nullValue)]⟩ "n"
      none).2.2.1 (by decide)).1
  · exact (claim8_bind_invariant ⟨[("n", some .nullValue)]⟩ "n"
      none).2.2.2.1 (by simp [varsTruthy, truthy])
  · exact (claim8_bind_invariant ⟨[("n", some .nullValue)]⟩ "n"
      none).2.2.2.2 (by simp [varsTruthy, truthy])

/-- C4: for every non-empty token list containing no `=` token,
dispatch resolution returns a registered command paired with the
remaining tokens iff the first token is a registered name or alias,
and otherwise returns the unresolved indication (`None`) with the
full, unmodified token list. -/
theorem claim4_find_command (t0 : String) (rest : List String)
    (hne : "=" ∉ t0 :: rest) :
    (∀ primary, dlookup t0 aliasedCommands = some primary →
      find_command (t0 :: rest) = .ok (some (.base primary), rest)) ∧
    (dlookup t0 aliasedCommands = none →
      find_command (t0 :: rest) = .ok (none, t0 :: rest)) := by
  have hstep : find_command (t0 :: rest) = .ok (lookupToken t0 rest) := by
    match rest with
    | [] => rfl
    | [t1] => rfl
    | t1 :: t2 :: rest2 =>
        have ht1 : ¬t1 = "=" := by
          intro h
          exact hne (by simp [h])
        simp [find_command, ht1]
  constructor
  · intro primary hp
    rw [hstep]
    simp [lookupToken, hp]
  · intro hp
    rw [hstep]
    simp [lookupToken, hp]

/-- Witness for C4: `get /a` resolves to the `get` command with `/a`
as remaining tokens, and `frobnicate /a` is unresolved with the full
token list intact. -/
theorem claim4_find_command_witness :
    find_command ["get", "/a"] = .ok (some (.base "get"), ["/a"]) ∧
    find_command ["frobnicate", "/a"] =
      .ok (none, ["frobnicate", "/a"]) := by
  constructor
  · exact (claim4_find_command "get" ["/a"] (by decide)).1 "get" (by decide)
  · exact (claim4_find_command "frobnicate" ["/a"] (by decide)).2 (by decide)

/-- C10: only token lists of length at least three with `=` second are
treated as assignments; a two-token list `[a, "="]` falls through to
ordinary lookup of `a` — no Assign wrapper is created — and when `a`
is not registered the unresolved indication is returned with the full
token list. -/
theorem claim10_two_token_assignment (a : String) :
    (dlookup a aliasedCommands = none →
      find_command [a, "="] = .ok (none, [a, "="])) ∧
    (∀ primary, dlookup a aliasedCommands = some primary →
      find_command [a, "="] = .ok (some (.base primary), ["="])) := by
  constructor
  · intro hp
    simp [find_command, lookupToken, hp]
  · intro primary hp
    simp [find_command, lookupToken, hp]

/-- Witness for C10: `x =` (an assignment with no right-hand side) is
not an assignment — `x` is looked up and, being unregistered, the full
token list is returned unresolved; `get =` resolves to the `get`
command. -/
theorem claim10_two_token_assignment_witness :
    find_command ["x", "="] = .ok (none, ["x", "="]) ∧
    find_command ["get", "="] = .ok (some (.base "get"), ["="]) := by
  constructor
  · exact (claim10_two_token_assignment "x").1 (by decide)
  · exact (claim10_two_token_assignment "get").2 "get" (by decide)

/-- C1 counterexample: at a last-segment object node `{"k": 2}` with
pattern list `["k"]` and accumulator `{"k": 1}`, the merged object maps
`"k"` to the freshly selected `2` — `_merge_dicts(collected, selected)`
runs `collected.update(selected)`, so the *selected* entry overwrites
the accumulator's, not the other way round as the claim states.  The
final conjunct pins the full pipeline: in `a(k).b.k` on
`{"a": {"k": 1, "b": {"k": 2}}}` the accumulator holds `k = 1` when the
last segment runs, yet the result carries `k = 2`. -/
theorem claim1_counterexample :
    select_part 1 (Json.obj [("k", Json.num 2)]) "k" [] []
        [("k", Json.num 1)] = .ok (.ref, [("k", Json.num 2)]) ∧
    resolveF 1 [("k", Json.num 2)] .ref = Json.obj [("k", Json.num 2)] ∧
    Json.obj [("k", Json.num 2)] ≠ Json.obj [("k", Json.num 1)] ∧
    select_stmt 10
        (Json.obj [("a", Json.obj [("k", Json.num 1),
          ("b", Json.obj [("k", Json.num 2)])])])
        "a(k).b.k" =
      .ok (Json.obj [("a", Json.obj [("b", Json.obj [("k", Json.num 2)])])]) :=
  ⟨rfl, rfl, by simp, rfl⟩

/-- C1 as amended: evaluating an object node at the last segment
assembles the object of all keys matching the pattern list, fails
`exhausted` when that object is empty (before any merge), and otherwise
merges the *selected object into the accumulator* — on a key present in
both, the freshly selected entry wins — and returns the (shared)
accumulator object holding that merge; keys only in the accumulator
survive with their accumulated values. -/
theorem claim1_last_segment_merge (fuel : Nat)
    (fields : List (String × Json)) (part : String)
    (collectHere : List String) (st st1 sel : CState)
    (hst1 : st1 = dupdate st (buildDict (pairsFor fields collectHere)))
    (hsel : sel = buildDict (pairsFor fields (parse_expression part).1)) :
    (sel = [] →
      select_part (fuel + 1) (.obj fields) part [] collectHere st =
        .error .exhausted) ∧
    (sel ≠ [] →
      select_part (fuel + 1) (.obj fields) part [] collectHere st =
        .ok (.ref, dupdate st1 sel) ∧
      (∀ k v, dlookup k sel = some v → dlookup k (dupdate st1 sel) = some v) ∧
      (∀ k, dlookup k sel = none →
        dlookup k (dupdate st1 sel) = dlookup k st1)) := by
  have hnd : (sel.map Prod.fst).Nodup := by
    rw [hsel]
    exact nodup_keys_buildDict _
  constructor
  · intro h
    simp [select_part, hst1.symm, hsel.symm, h]
  · intro h
    have hem : sel.isEmpty = false := by
      cases sel with
      | nil => exact absurd rfl h
      | cons kv rest => rfl
    refine ⟨?_, ?_, ?_⟩
    · simp [select_part, hst1.symm, hsel.symm, hem]
    · intro k v hkv
      exact dlookup_dupdate_of_nodup k sel st1 v hnd hkv
    · intro k hk
      exact dlookup_dupdate_of_none k st1 sel hk

/-- Witness for C1-as-amended at the counterexample data: the selected
entry `("k", 2)` overwrites the accumulated `("k", 1)` in the returned
merge, and with a pattern matching nothing the evaluation fails
`exhausted`. -/
theorem claim1_last_segment_merge_witness :
    select_part 1 (Json.obj [("k", Json.num 2)]) "k" [] []
        [("k", Json.num 1)] = .ok (.ref, [("k", Json.num 2)]) ∧
    dlookup "k" [("k", Json.num 2)] = some (Json.num 2) ∧
    select_part 1 (Json.obj [("k", Json.num 2)]) "z" [] [] [] =
      .error .exhausted := by
  refine ⟨?_, ?_, ?_⟩
  · exact ((claim1_last_segment_merge 0 [("k", Json.num 2)] "k" []
      [("k", Json.num 1)] [("k", Json.num 1)] [("k", Json.num 2)]
      rfl rfl).2 (by simp)).1
  · exact ((claim1_last_segment_merge 0 [("k", Json.num 2)] "k" []
      [("k", Json.num 1)] [("k", Json.num 1)] [("k", Json.num 2)]
      rfl rfl).2 (by simp)).2.1 "k" (Json.num 2) rfl
  · exact (claim1_last_segment_merge 0 [("k", Json.num 2)] "z" []
      [] [] [] rfl rfl).1 rfl

/-- C2 counterexample: on `{"a": {"name": "Fluffy", "breed": "X"},
"b": 1}` the statement `a.name` does *not* produce `{"name":
"Fluffy"}` — the recursive object branch keys its result by the
matched key, so the result stays nested under `"a"`. -/
theorem claim2_counterexample :
    select_stmt 10
        (Json.obj [("a", Json.obj [("name", Json.str "Fluffy"),
          ("breed", Json.str "X")]), ("b", Json.num 1)])
        "a.name" ≠
      .ok (Json.obj [("name", Json.str "Fluffy")]) := by
  have h : select_stmt 10
      (Json.obj [("a", Json.obj [("name", Json.str "Fluffy"),
        ("breed", Json.str "X")]), ("b", Json.num 1)])
      "a.name" =
      .ok (Json.obj [("a", Json.obj [("name", Json.str "Fluffy")])]) := rfl
  rw [h]
  simp

/-- C2 as amended: on `{"a": {"name": "Fluffy", "breed": "X"}, "b": 1}`
the statement `a.name` succeeds and produces exactly
`{"a": {"name": "Fluffy"}}` (the selected name stays nested under the
matched key `"a"`). -/
theorem claim2_select_a_name :
    select_stmt 10
        (Json.obj [("a", Json.obj [("name", Json.str "Fluffy"),
          ("breed", Json.str "X")]), ("b", Json.num 1)])
        "a.name" =
      .ok (Json.obj [("a", Json.obj [("name", Json.str "Fluffy")])]) := rfl

/-- C3 counterexample: on `{"a": [{"k": 1, "b": 2}, {"b": 3}]}` the
statement `a(k).b` yields `{"a": [{"k": 1, "b": 3}, {"k": 1, "b": 3}]}`:
the second element's result contains the entry `("k", 1)` that was
collected *while evaluating the first element* (the second element has
no key `"k"` at all), because the single `collected` dict is passed to
every element; evaluated independently the second element would give
`{"b": 3}` (second conjunct).  Both elements moreover resolve to the
same final accumulator contents, so the first element's result was
retroactively mutated by the second element's merge. -/
theorem claim3_counterexample :
    select_stmt 10
        (Json.obj [("a", Json.arr
          [Json.obj [("k", Json.num 1), ("b", Json.num 2)],
           Json.obj [("b", Json.num 3)]])])
        "a(k).b" =
      .ok (Json.obj [("a", Json.arr
        [Json.obj [("k", Json.num 1), ("b", Json.num 3)],
         Json.obj [("k", Json.num 1), ("b", Json.num 3)]])]) ∧
    finishSelect 10
        (select_part 10 (Json.obj [("b", Json.num 3)]) "b" [] ["k"] []) =
      .ok (Json.obj [("b", Json.num 3)]) ∧
    Json.obj [("k", Json.num 1), ("b", Json.num 3)] ≠
      Json.obj [("b", Json.num 3)] :=
  ⟨rfl, rfl, by simp⟩

/-- C3 as amended: the array branch evaluates the elements left to
right with the segment's pattern list re-joined into one
comma-separated string and the same remaining segments, *threading the
single shared accumulator from each element to the next*: the
accumulator state `st1` produced by the first element is the input
state for the remaining elements, so collect-clause matches made while
evaluating one element are visible in the evaluation (and via the
shared-object result, in the final resolved output) of the others. -/
theorem claim3_array_threading (fuel : Nat) (item : Json)
    (items : List Json) (part : String) (parts : List String)
    (collectHere : List String) (st st1 st2 : CState) (r : RJson)
    (rs : List RJson)
    (h1 : select_part fuel item (joinComma (parse_expression part).1)
      parts collectHere st = .ok (r, st1))
    (h2 : select_part (fuel + 1) (.arr items) part parts collectHere st1 =
      .ok (.arr rs, st2)) :
    select_part (fuel + 1) (.arr (item :: items)) part parts collectHere st =
      .ok (.arr (r :: rs), st2) := by
  simp only [select_part] at h2 ⊢
  rw [foldItems, h1]
  revert h2
  cases hfi : foldItems
      (fun v s =>
        select_part fuel v (joinComma (parse_expression part).1)
          parts collectHere s) items st1 with
  | error e => intro h2; cases h2
  | ok p =>
      intro h2
      obtain ⟨rs2, st3⟩ := p
      dsimp only at h2 ⊢
      rw [hfi]
      dsimp only
      have h3 := Except.ok.inj h2
      have hrs : rs2 = rs := by
        have harr : RJson.arr rs2 = RJson.arr rs := congrArg Prod.fst h3
        injection harr
      have hst : st3 = st2 := congrArg Prod.snd h3
      rw [hrs, hst]

/-- Witness for C3-as-amended at the counterexample data: the
accumulator `{"k": 1, "b": 2}` left by the first array element is the
state in which the second element is evaluated, producing the combined
final state `{"k": 1, "b": 3}`. -/
theorem claim3_array_threading_witness :
    select_part 9
        (Json.arr [Json.obj [("k", Json.num 1), ("b", Json.num 2)],
          Json.obj [("b", Json.num 3)]])
        "b" [] ["k"] [] =
      .ok (.arr [.ref, .ref], [("k", Json.num 1), ("b", Json.num 3)]) :=
  claim3_array_threading 8
    (Json.obj [("k", Json.num 1), ("b", Json.num 2)])
    [Json.obj [("b", Json.num 3)]] "b" [] ["k"]
    [] [("k", Json.num 1), ("b", Json.num 2)]
    [("k", Json.num 1), ("b", Json.num 3)] .ref [.ref] rfl rfl

/-- C5: when the first segment of a select statement parses to an
empty pattern list and a non-empty collect list and at least two
segments exist, evaluation starts at the *second* segment with the
first segment's collect list carried forward as the inherited collect
patterns; in every other case evaluation starts at the first segment
with an empty inherited collect list. -/
theorem claim5_prefix_collect (fuel : Nat) (doc : Json) (stmt p0 : String)
    (rest : List String) (hsplit : splitStr '.' stmt = p0 :: rest) :
    (∀ p1 rest2 c cs, rest = p1 :: rest2 →
      parse_expression p0 = ([], c :: cs) →
      select_stmt fuel doc stmt =
        finishSelect fuel (select_part fuel doc p1 rest2 (c :: cs) [])) ∧
    ((parse_expression p0).1 ≠ [] ∨ (parse_expression p0).2 = [] ∨
        rest = [] →
      select_stmt fuel doc stmt =
        finishSelect fuel (select_part fuel doc p0 rest [] [])) := by
  constructor
  · intro p1 rest2 c cs hr hp
    subst hr
    simp [select_stmt, hsplit, hp]
  · intro h
    cases rest with
    | nil => simp [select_stmt, hsplit]
    | cons p1 rest2 =>
        rcases hpe : parse_expression p0 with ⟨pats, col⟩
        cases pats with
        | nil =>
            cases col with
            | nil => simp [select_stmt, hsplit, hpe]
            | cons c cs =>
                rw [hpe] at h
                simp at h
        | cons q qs => simp [select_stmt, hsplit, hpe]

/-- Witness for C5: `(x).a.b` (empty patterns, collect `x`, three
segments) starts at segment `a` carrying collect list `["x"]`;
`a.name` starts at its first segment with no inherited collect list. -/
theorem claim5_prefix_collect_witness :
    select_stmt 10
        (Json.obj [("x", Json.num 1), ("a", Json.obj [("b", Json.num 2)])])
        "(x).a.b" =
      finishSelect 10 (select_part 10
        (Json.obj [("x", Json.num 1), ("a", Json.obj [("b", Json.num 2)])])
        "a" ["b"] ["x"] []) ∧
    select_stmt 10
        (Json.obj [("a", Json.obj [("name", Json.str "Fluffy")])])
        "a.name" =
      finishSelect 10 (select_part 10
        (Json.obj [("a", Json.obj [("name", Json.str "Fluffy")])])
        "a" ["name"] [] []) := by
  constructor
  · exact (claim5_prefix_collect 10 _ "(x).a.b" "(x)" ["a", "b"] rfl).1
      "a" ["b"] "x" [] rfl rfl
  · exact (claim5_prefix_collect 10 _ "a.name" "a" ["name"] rfl).2
      (Or.inl (by decide))

theorem lt_freshRef : ∀ (h : Heap) (r : Nat) (o : HostObj),
    dlookup r h = some o → r < freshRef h := by
  intro h
  induction h with
  | nil => intro r o hr; cases hr
  | cons kv rest ih =>
      intro r o hr
      by_cases h0 : kv.1 = r
      · subst h0
        exact Nat.lt_of_lt_of_le (Nat.lt_succ_self kv.1)
          (Nat.le_max_left _ _)
      · simp only [dlookup, h0, if_neg h0] at hr
        exact Nat.lt_of_lt_of_le (ih r o hr) (Nat.le_max_right _ _)

/-- C9: constructing a Request from the active Host deep-copies the
host (including its header map) into a fresh heap cell distinct from
the live host's, so later `add_header` or `remove_header` edits on the
live host leave the Request's host snapshot unchanged. -/
theorem claim9_request_snapshot (heap : Heap) (liveRef : Nat)
    (hobj : HostObj) (verb path n v rm : String)
    (hlive : dlookup liveRef heap = some hobj) :
    request_init heap liveRef verb path =
      some (dinsert (freshRef heap) hobj heap,
        ⟨freshRef heap, verb, path⟩) ∧
    freshRef heap ≠ liveRef ∧
    dlookup (freshRef heap)
        (host_add_header (dinsert (freshRef heap) hobj heap) liveRef n v) =
      some hobj ∧
    dlookup (freshRef heap)
        (host_remove_header (dinsert (freshRef heap) hobj heap) liveRef rm) =
      some hobj := by
  have hlt : liveRef < freshRef heap := lt_freshRef heap liveRef hobj hlive
  have hne : freshRef heap ≠ liveRef := Nat.ne_of_gt hlt
  have hlook : dlookup liveRef (dinsert (freshRef heap) hobj heap) =
      some hobj := by
    rw [dlookup_dinsert_ne _ _ _ _ (Ne.symm hne)]
    exact hlive
  refine ⟨?_, hne, ?_, ?_⟩
  · simp [request_init, hlive]
  · simp only [host_add_header, hlook]
    rw [dlookup_dinsert_ne _ _ _ _ hne]
    exact dlookup_dinsert_self _ _ _
  · simp only [host_remove_header, hlook]
    rw [dlookup_dinsert_ne _ _ _ _ hne]
    exact dlookup_dinsert_self _ _ _

/-- Witness for C9 on a one-host heap: the request snapshot lands in
fresh cell 1, and adding or removing a header on live host 0 leaves
cell 1 with the original headers. -/
theorem claim9_request_snapshot_witness :
    request_init [(0, HostObj.mk "a" "http://x" [("Accept", "json")])]
        0 "get" "/d" =
      some ([(0, HostObj.mk "a" "http://x" [("Accept", "json")]),
             (1, HostObj.mk "a" "http://x" [("Accept", "json")])],
        ⟨1, "get", "/d"⟩) ∧
    dlookup 1 (host_add_header
        [(0, HostObj.mk "a" "http://x" [("Accept", "json")]),
         (1, HostObj.mk "a" "http://x" [("Accept", "json")])]
        0 "X-Trace" "y") =
      some (HostObj.mk "a" "http://x" [("Accept", "json")]) ∧
    dlookup 1 (host_remove_header
        [(0, HostObj.mk "a" "http://x" [("Accept", "json")]),
         (1, HostObj.mk "a" "http://x" [("Accept", "json")])]
        0 "Accept") =
      some (HostObj.mk "a" "http://x" [("Accept", "json")]) := by
  refine ⟨?_, ?_, ?_⟩
  · exact (claim9_request_snapshot
      [(0, HostObj.mk "a" "http://x" [("Accept", "json")])] 0
      (HostObj.mk "a" "http://x" [("Accept", "json")]) "get" "/d"
      "X-Trace" "y" "Accept" (by decide)).1
  · exact (claim9_request_snapshot
      [(0, HostObj.mk "a" "http://x" [("Accept", "json")])] 0
      (HostObj.mk "a" "http://x" [("Accept", "json")]) "get" "/d"
      "X-Trace" "y" "Accept" (by decide)).2.2.1
  · exact (claim9_request_snapshot
      [(0, HostObj.mk "a" "http://x" [("Accept", "json")])] 0
      (HostObj.mk "a" "http://x" [("Accept", "json")]) "get" "/d"
      "X-Trace" "y" "Accept" (by decide)).2.2.2


end Httpsh
